import Mathlib

/-!
Verification of the SEC-filing extraction pipeline of the finance-dashboard
repository (src/utils/secscraper/_utils.py, _dataclasses.py, _mapping.py,
sec_class.py).

Dataframes are shallowly embedded as lists of typed rows; a pandas null
(NaN/None/NaT) in a column is an `Option.none`.  Calendar dates are whole
days since 1970-01-01 (the source parses them with strptime of YYYY-MM-DD,
so all dates are midnights and date arithmetic is exact in days).  Numeric
cell values produced by `astype(float)` are modelled as exact decimal
rationals.  The network/markup collaborator (`TickerData`) is abstracted as
a record of fallible functions returning `Except`, mirroring which calls of
the orchestrator can raise; its bs4/HTTP internals are out of scope per the
spec (sections 1 and 6).
-/

namespace SecScraper

/-- Days since 1970-01-01. -/
abbrev Date := Int

/-- Day number of 2009-01-01 (the cutoff compared against `filingDate` in
`get_filing_facts`, line 62 of _utils.py). -/
def jan1of2009 : Date := 14245

/-- The `segment` dict built by `Context.segment` in _dataclasses.py:
insertion-ordered (dimension axis, member text) pairs; `none` at the column
level means the context had no segment tag. -/
abbrev Segment := List (String × String)

/-! ## 4.7 Standard-Name Translator: `reverse_standard_mapping` -/

/-- Python dict assignment `d[k] = v`: overwrite the value if the key is
present (keeping its position), else append the binding. -/
def dictInsert (m : List (String × String)) (k v : String) :
    List (String × String) :=
  if m.any (fun p => p.1 = k) then
    m.map (fun p => if p.1 = k then (k, v) else p)
  else
    m ++ [(k, v)]

/-- Python dict lookup `d.get(k)`. -/
def dictGet (m : List (String × String)) (k : String) : Option String :=
  (m.find? (fun p => p.1 = k)).map (fun p => p.2)

/-- `reverse_standard_mapping` (_utils.py lines 12-18): invert the
canonical-name to synonym-list table by plain dict assignment, one synonym
at a time. -/
def reverse_standard_mapping (standard_name_mapping : List (String × List String)) :
    List (String × String) :=
  standard_name_mapping.foldl
    (fun reverse_mapping p =>
      p.2.foldl (fun rm tag => dictInsert rm tag p.1) reverse_mapping)
    []

/-- The flattened (synonym, canonical-name) assignment sequence performed by
`reverse_standard_mapping`, in execution order. -/
def synonymAssignments (m : List (String × List String)) : List (String × String) :=
  m.flatMap (fun p => p.2.map (fun tag => (tag, p.1)))

/-- Specification-side reading of duplicate handling: the canonical name of
the last assignment of a synonym, if any. -/
def lastAssignment (m : List (String × List String)) (tag : String) : Option String :=
  ((synonymAssignments m).reverse.find? (fun p => p.1 = tag)).map (fun p => p.2)

/-- A synonym listed under two different canonical names of the table. -/
def hasDuplicateSynonym (m : List (String × List String)) : Bool :=
  (synonymAssignments m).any (fun a =>
    (synonymAssignments m).any (fun b => a.1 = b.1 && a.2 ≠ b.2))

/-- Mirror of `STANDARD_NAME_MAPPING` (_mapping.py): the shipped
canonical-name to synonym-list configuration table, in source order. -/
def STANDARD_NAME_MAPPING : List (String × List String) := [
  ("Revenue",
    ["Revenue from Contract with Customer, Excluding Assessed Tax",
     "Revenues",
     "Revenue, Net",
     "Sales Revenue Net",
     "Sales Revenue, Net"]),
  ("Cost of Goods or Services",
    ["Cost of Goods and Services Sold",
     "Cost Of Goods And Services Sold",
     "Cost of sales"]),
  ("Gross Profit", [""]),
  ("Operating Expenses", [""]),
  ("Operating Income", [""]),
  ("Interest Expense", [""]),
  ("Income Before Tax", [""]),
  ("Income Tax Expense",
    ["Income Taxes Paid, Net",
     "Income Taxes Paid Net"]),
  ("Net Income",
    ["Net Income (Loss)",
     "Net income",
     "Net sales",
     "Net Income Loss"]),
  ("Cash and Cash Equivalents", [""]),
  ("Short Term Investments", [""]),
  ("Total Cash", [""]),
  ("Net Receivables", [""]),
  ("Inventory", [""]),
  ("Other Current Assets", [""]),
  ("Total Current Assets", [""]),
  ("Long Term Investments", [""]),
  ("Property Plant and Equipment", [""]),
  ("Goodwill", [""]),
  ("Intangible Assets", [""]),
  ("Other Assets", [""]),
  ("Total Assets", [""]),
  ("Accounts Payable", [""]),
  ("Short/Current Long Term Debt", [""]),
  ("Other Current Liabilities", [""]),
  ("Total Current Liabilities", [""]),
  ("Long Term Debt", [""]),
  ("Other Liabilities", [""]),
  ("Total Liabilities", [""]),
  ("Common Stock", [""]),
  ("Retained Earnings", [""]),
  ("Treasury Stock", [""]),
  ("Capital Surplus", [""]),
  ("Shareholder Equity", [""]),
  ("Net Tangible Assets", [""]),
  ("Total Stockholders Equity", [""]),
  ("Net Cash Flow", [""]),
  ("Net Cash Flow-Operating", [""]),
  ("Net Cash Flows-Investing", [""]),
  ("Net Cash Flows-Financing", [""]),
  ("Effect of Exchange Rate Changes", [""]),
  ("Net Change in Cash", [""]),
  ("Cash Interest Paid", [""]),
  ("Cash Taxes Paid", [""]),
  ("Depreciation and Amortization", [""]),
  ("Capital Expenditures", [""]),
  ("Change in Working Capital", [""]),
  ("Free Cash Flow", [""]),
  ("Free Cash Flow per Share", [""]),
  ("Operating Cash Flow per Share", [""]),
  ("Cash per Share", [""]),
  ("Book Value per Share", [""]),
  ("Tangible Book Value per Share", [""]),
  ("Shareholders Equity per Share", [""]),
  ("Interest Debt per Share", [""]),
  ("Market Cap", [""]),
  ("Enterprise Value", [""]),
  ("PE Ratio", [""]),
  ("Price to Sales Ratio", [""]),
  ("POCF Ratio", [""]),
  ("PFCF Ratio", [""]),
  ("PB Ratio", [""]),
  ("PTB Ratio", [""]),
  ("EV to Sales", [""]),
  ("Enterprise Value over EBITDA", [""]),
  ("EV to Operating cash flow", [""])]

/-! ## Row types of the merged-facts frame -/

/-- One row of the merged-facts frame returned by `get_filing_facts`
(_utils.py lines 196-197): exactly the projected column set.  `factValue`
is still the raw tag text at this stage. -/
structure MergedRow where
  labelText : Option String
  segment : Option Segment
  startDate : Option Date
  endDate : Option Date
  instant : Option Date
  factValue : String
  unitRef : Option String
deriving DecidableEq, Repr

/-! ## 4.6 Value Cleaner: `clean_values_in_facts`

The filter is `Series.str.contains` with the pattern `^-?\d+(\.\d+)?$`,
i.e. Python `re.search` of an anchored pattern: `^` forces the match to
start at position 0 and `$` matches either at the end of the string or just
before a final newline character.  `\d` is modelled as the ASCII digits
(filing fact values are ASCII). -/

/-- Match of the pattern body `\d+(\.\d+)?` against a whole character list. -/
def matchesUnsigned (cs : List Char) : Bool :=
  let ds := cs.takeWhile Char.isDigit
  let rest := cs.dropWhile Char.isDigit
  decide (ds ≠ []) &&
    (match rest with
     | [] => true
     | '.' :: fs => decide (fs ≠ []) && fs.all Char.isDigit
     | _ => false)

/-- Full match of `-?\d+(\.\d+)?` against a whole character list. -/
def matchesSignedChars : List Char → Bool
  | '-' :: rest => matchesUnsigned rest
  | cs => matchesUnsigned cs

/-- Full ("in its entirety") match of `^-?\d+(\.\d+)?$` against a string:
the numeric-pattern reading used by the specification. -/
def matchesSignedDecimal (s : String) : Bool :=
  matchesSignedChars s.data

/-- Drop a single final newline character, if present. -/
def dropTrailingNewline (cs : List Char) : List Char :=
  if cs.getLast? = some '\n' then cs.dropLast else cs

/-- Python `re.search` of the anchored pattern `^-?\d+(\.\d+)?$` (what
`Series.str.contains` evaluates): a full match, or a full match of
everything before a final newline. -/
def searchSignedDecimal (s : String) : Bool :=
  matchesSignedChars s.data ||
    (decide (s.data.getLast? = some '\n') && matchesSignedChars s.data.dropLast)

/-- Numeric value of a digit run, most significant first. -/
def natOfDigits (cs : List Char) : Nat :=
  cs.foldl (fun n c => 10 * n + (c.toNat - Char.toNat '0')) 0

/-- Value of `-?\d+(\.\d+)?` text as an exact rational. -/
def ratOfUnsigned (cs : List Char) : ℚ :=
  let ds := cs.takeWhile Char.isDigit
  let rest := cs.dropWhile Char.isDigit
  match rest with
  | '.' :: fs => (natOfDigits ds : ℚ) + (natOfDigits fs : ℚ) / ((10 : ℚ) ^ fs.length)
  | _ => (natOfDigits ds : ℚ)

/-- Python `float(s)` on the strings admitted by the filter (it ignores the
surrounding whitespace, hence the possible final newline), as an exact
decimal rational. -/
def parseDecimal (s : String) : ℚ :=
  match dropTrailingNewline s.data with
  | '-' :: rest => -(ratOfUnsigned rest)
  | cs => ratOfUnsigned cs

/-- A merged-facts row whose `factValue` has been cast by `astype(float)`. -/
structure CleanedRow where
  labelText : Option String
  segment : Option Segment
  startDate : Option Date
  endDate : Option Date
  instant : Option Date
  factValue : ℚ
  unitRef : Option String
deriving DecidableEq, Repr

/-- Cast one admitted row. -/
def castRow (r : MergedRow) : CleanedRow :=
  { labelText := r.labelText, segment := r.segment, startDate := r.startDate,
    endDate := r.endDate, instant := r.instant,
    factValue := parseDecimal r.factValue, unitRef := r.unitRef }

/-- `clean_values_in_facts` (_utils.py lines 209-219): keep the rows whose
`factValue` passes `str.contains` of the anchored pattern and is neither
the empty string nor the bare minus sign, then cast `factValue` to float. -/
def clean_values_in_facts (merged_facts : List MergedRow) : List CleanedRow :=
  (merged_facts.filter (fun r =>
      searchSignedDecimal r.factValue &&
      decide (r.factValue ≠ "") &&
      decide (r.factValue ≠ "-"))).map castRow

/-! ## 4.8 Period Splitter: `split_facts_into_start_instant`

`drop_duplicates(subset=..., keep='last')` keeps a row exactly when no
later row agrees with it on the subset columns — but it factorizes (hashes)
every cell of the subset columns first, and the `segment` column of the
merged-facts frame holds the dicts stored by `Context.to_dict`, which are
unhashable.  So on any frame with a present segment cell (even an empty
dict) the call raises `TypeError: unhashable type: dict` before
deduplicating, mutating or sorting anything; the keep-last semantics is
reached only on frames whose segment column is entirely null
(`sort_values` over the dict-valued segment key would likewise raise, but
`drop_duplicates` runs first).  `split_core` models the raise; the
keep-last kernel below models the surviving path.  `sort_values` is
modelled as a total sort on the listed keys with pandas' NaN-last
placement; the source relies on an unspecified tie order (quicksort), so
only membership in the sorted outputs is meaningful, which is all the
claims use. -/

/-- The `drop_duplicates` subset used by `split_facts_into_start_instant`:
(labelText, segment, startDate, endDate, instant, factValue). -/
def dedupKey (r : MergedRow) :
    Option String × Option Segment × Option Date × Option Date × Option Date × String :=
  (r.labelText, r.segment, r.startDate, r.endDate, r.instant, r.factValue)

/-- The keep-last law of `drop_duplicates(subset, keep='last')` on frames
whose subset cells are hashable (see the section comment — on a frame with
a dict segment cell the real call raises instead, the path modelled in
`split_core`): a row survives iff no later row shares its key. -/
def dropDuplicatesKeepLast : List MergedRow → List MergedRow
  | [] => []
  | r :: rest =>
    if rest.any (fun q => dedupKey q = dedupKey r) then
      dropDuplicatesKeepLast rest
    else
      r :: dropDuplicatesKeepLast rest

/-- Insertion step of the sort model. -/
def insertBy (le : α → α → Bool) (a : α) : List α → List α
  | [] => [a]
  | b :: bs => if le a b then a :: b :: bs else b :: insertBy le a bs

/-- Total sort used to model `sort_values` (see the section comment). -/
def sortBy (le : α → α → Bool) (l : List α) : List α :=
  l.foldr (insertBy le) []

/-- Key order of one nullable string column: nulls sort last. -/
def leOptStr : Option String → Option String → Bool
  | none, none => true
  | none, some _ => false
  | some _, none => true
  | some a, some b => a ≤ b

/-- Key order of one nullable date column: nulls sort last. -/
def leOptDate : Option Date → Option Date → Bool
  | none, none => true
  | none, some _ => false
  | some _, none => true
  | some a, some b => a ≤ b

/-- Injective textual encoding of a segment dict, ordering the segment sort
key (the source hands pandas raw dict objects here; any total order is an
admissible model since no claim depends on tie order). -/
def segKeyText : Segment → String :=
  fun ps => String.intercalate ";" (ps.map (fun p => p.1 ++ "=" ++ p.2))

/-- Key order of the nullable segment column: nulls sort last. -/
def leOptSeg : Option Segment → Option Segment → Bool
  | none, none => true
  | none, some _ => false
  | some _, none => true
  | some a, some b => segKeyText a ≤ segKeyText b

/-- One row of the duration-facts table (`start_end` of
`split_facts_into_start_instant`): its projected column set. -/
structure StartEndRow where
  labelText : Option String
  segment : Option Segment
  unitRef : Option String
  startDate : Option Date
  endDate : Option Date
  factValue : String
deriving DecidableEq, Repr

/-- One row of the instant-facts table (`instant` of
`split_facts_into_start_instant`): its projected column set. -/
structure InstantRow where
  labelText : Option String
  segment : Option Segment
  unitRef : Option String
  instant : Option Date
  factValue : String
deriving DecidableEq, Repr

/-- Projection of a merged row onto the duration-table columns. -/
def toStartEndRow (r : MergedRow) : StartEndRow :=
  { labelText := r.labelText, segment := r.segment, unitRef := r.unitRef,
    startDate := r.startDate, endDate := r.endDate, factValue := r.factValue }

/-- Projection of a merged row onto the instant-table columns. -/
def toInstantRow (r : MergedRow) : InstantRow :=
  { labelText := r.labelText, segment := r.segment, unitRef := r.unitRef,
    instant := r.instant, factValue := r.factValue }

/-- Sort order of the duration table: by (labelText, segment, startDate,
endDate). -/
def leStartEnd (a b : StartEndRow) : Bool :=
  if a.labelText ≠ b.labelText then leOptStr a.labelText b.labelText
  else if a.segment ≠ b.segment then leOptSeg a.segment b.segment
  else if a.startDate ≠ b.startDate then leOptDate a.startDate b.startDate
  else leOptDate a.endDate b.endDate

/-- Sort order of the instant table: by (labelText, segment, instant). -/
def leInstant (a b : InstantRow) : Bool :=
  if a.labelText ≠ b.labelText then leOptStr a.labelText b.labelText
  else if a.segment ≠ b.segment then leOptSeg a.segment b.segment
  else leOptDate a.instant b.instant

/-- The successful path of `split_facts_into_start_instant` (_utils.py
lines 273-292), reached only on frames whose segment column is entirely
null: deduplicate keeping the last occurrence, then build the duration
table (`dropna` on startDate and endDate, project, sort) and the instant
table (`dropna` on instant, project, sort).  Returns the deduplicated frame
itself first, as the source does. -/
def splitTables (merged_facts : List MergedRow) :
    List MergedRow × List StartEndRow × List InstantRow :=
  let deduped := dropDuplicatesKeepLast merged_facts
  let start_end := sortBy leStartEnd
    ((deduped.filter (fun r => r.startDate.isSome && r.endDate.isSome)).map toStartEndRow)
  let instant := sortBy leInstant
    ((deduped.filter (fun r => r.instant.isSome)).map toInstantRow)
  (deduped, start_end, instant)

/-- Value-level body of `split_facts_into_start_instant`: on a frame with
any present (dict-valued, possibly empty) segment cell, `drop_duplicates`
raises `TypeError` while hashing the subset cells, before any table is
built; otherwise the dedup-and-split of `splitTables`. -/
def split_core (merged_facts : List MergedRow) :
    Except String (List MergedRow × List StartEndRow × List InstantRow) :=
  if merged_facts.any (fun r => r.segment.isSome) then
    Except.error "TypeError: unhashable type: dict"
  else
    Except.ok (splitTables merged_facts)

/-! In-place mutation model.  `drop_duplicates(..., inplace=True)` rewrites
the caller's frame object; the function then returns that same object.  A
pandas frame variable is modelled as a reference into a heap of frames. -/

/-- Reference to a dataframe object (index into the heap). -/
abbrev FrameRef := Nat

/-- The heap of live merged-facts frames. -/
structure FrameHeap where
  frames : List (List MergedRow)
deriving Repr

/-- Dereference a frame. -/
def readFrame (h : FrameHeap) (r : FrameRef) : List MergedRow :=
  h.frames.getD r []

/-- Overwrite a frame in place. -/
def writeFrame (h : FrameHeap) (r : FrameRef) (v : List MergedRow) : FrameHeap :=
  ⟨h.frames.set r v⟩

/-- `split_facts_into_start_instant` with its frame effect: when the call
completes, the duplicate drop happens `inplace=True` on the argument frame
and the first returned frame is that same object (same reference), not a
copy; when `drop_duplicates` raises (dict segment cells), the exception
leaves the frame unchanged. -/
def split_facts_into_start_instant (h : FrameHeap) (merged_facts : FrameRef) :
    Except String (FrameHeap × FrameRef × List StartEndRow × List InstantRow) :=
  match split_core (readFrame h merged_facts) with
  | Except.error e => Except.error e
  | Except.ok t =>
    Except.ok (writeFrame h merged_facts t.1, merged_facts, t.2.1, t.2.2)

/-! ## 4.8 Period classifier: `get_monthly_period` -/

/-- numpy/pandas `Series.round(0)`: round half to even.  (The classifier
below is proved to agree with ordinary rounding on every whole-day input.) -/
def roundHalfEven (q : ℚ) : ℤ :=
  let f := Int.floor q
  if q - f < 1 / 2 then f
  else if q - f > 1 / 2 then f + 1
  else if 2 ∣ f then f else f + 1

/-- A merged-facts row with the two columns `get_monthly_period` adds. -/
structure PeriodRow where
  labelText : Option String
  segment : Option Segment
  startDate : Option Date
  endDate : Option Date
  instant : Option Date
  factValue : String
  unitRef : Option String
  period : Option ℚ
  monthsEnded : Option String
deriving DecidableEq, Repr

/-- Per-row computation of `get_monthly_period` (_utils.py lines 295-314):
`period` is `(endDate - startDate).days / 30.25` rounded (NaN when either
date is null, and NaN compares false in every `np.select` condition), and
`Months Ended` is the 3/6/9/12 bucket of the rounded value, else null. -/
def addPeriod (r : MergedRow) : PeriodRow :=
  let period : Option ℚ :=
    match r.startDate, r.endDate with
    | some s, some e => some ((roundHalfEven (((e - s : ℤ) : ℚ) / 30.25) : ℤ) : ℚ)
    | _, _ => none
  let monthsEnded : Option String :=
    match period with
    | some p =>
      if p = 3 then some "Three Months Ended"
      else if p = 6 then some "Six Months Ended"
      else if p = 9 then some "Nine Months Ended"
      else if p = 12 then some "Twelve Months Ended"
      else none
    | none => none
  { labelText := r.labelText, segment := r.segment, startDate := r.startDate,
    endDate := r.endDate, instant := r.instant, factValue := r.factValue,
    unitRef := r.unitRef, period := period, monthsEnded := monthsEnded }

/-- `get_monthly_period` over the whole frame. -/
def get_monthly_period (df : List MergedRow) : List PeriodRow :=
  df.map addPeriod

/-! ## 4.3 Label Resolver: key normalization (_utils.py lines 125-136)

`get_elements` itself is a `TickerData` method whose definition is not part
of the sources (only its call sites are); the raw element rows it yields
are therefore collaborator-supplied inputs here.  The normalization the
orchestrator applies to them is in _utils.py and is embedded below. -/

/-- A raw element row as supplied by `get_elements`: the xlink attributes
and the label text column used downstream. -/
structure LabelRaw where
  xlinkType : String
  xlinkRole : String
  xlinkLabel : String
  labelText : Option String
deriving DecidableEq, Repr

/-- A processed label row of the `labels` frame accumulated by
`get_filing_facts` (column names `xlink:type`, `xlink:role`,
`xlink:label`, `xlink:labelOriginal`, `labelText`, `accessionNumber`). -/
structure LabelRow where
  xlinkType : String
  xlinkRole : String
  xlinkLabel : String
  xlinkLabelOriginal : String
  labelText : Option String
  accessionNumber : String
deriving DecidableEq, Repr

/-- Python `str.lower()`, modelled character-wise (kernel-computable, in
contrast to `String.toLower`). -/
def toLowerStr (s : String) : String :=
  String.mk (s.data.map Char.toLower)

/-- Python `s.split('/')[-1]`: the component after the last slash. -/
def lastSlashComponent (s : String) : String :=
  (s.splitOn "/").getLastD s

/-- Python `re.sub('(lab_)|(_en-US)', '', s)`: scan left to right, at each
position removing `lab_` if it starts there, else `_en-US` if it starts
there, else keeping the character; removed text is not rescanned. -/
def stripLabelBoilerplate (cs : List Char) : List Char :=
  if h4 : List.isPrefixOf "lab_".data cs then
    stripLabelBoilerplate (cs.drop 4)
  else if h6 : List.isPrefixOf "_en-US".data cs then
    stripLabelBoilerplate (cs.drop 6)
  else
    match cs with
    | [] => []
    | c :: rest => c :: stripLabelBoilerplate rest
termination_by cs.length
decreasing_by
  · have hp : "lab_".data <+: cs := List.isPrefixOf_iff_prefix.mp h4
    have h1 : ("lab_".data).length = 4 := rfl
    have hlen : 4 ≤ cs.length := h1 ▸ hp.length_le
    simp only [List.length_drop]
    omega
  · have hp : "_en-US".data <+: cs := List.isPrefixOf_iff_prefix.mp h6
    have h1 : ("_en-US".data).length = 6 := rfl
    have hlen : 6 ≤ cs.length := h1 ▸ hp.length_le
    simp only [List.length_drop]
    omega
  · simp

/-- The normalized label key of _utils.py lines 131-135: strip the
boilerplate, split on underscore, rejoin the first two components with a
colon, lower-case. -/
def normalizeLabelKey (xlinkLabel : String) : String :=
  let cleaned := String.mk (stripLabelBoilerplate xlinkLabel.data)
  toLowerStr (String.intercalate ":" ((cleaned.splitOn "_").take 2))

/-- The labels stage of `get_filing_facts` (lines 126-136): restrict to
`xlink:type == 'resource'`, shorten the role to its suffix, normalize the
key, stamp the accession number. -/
def processLabels (raw : List LabelRaw) (accessionNumber : String) : List LabelRow :=
  (raw.filter (fun l => l.xlinkType = "resource")).map (fun l =>
    { xlinkType := l.xlinkType,
      xlinkRole := lastSlashComponent l.xlinkRole,
      xlinkLabel := normalizeLabelKey l.xlinkLabel,
      xlinkLabelOriginal := l.xlinkLabel,
      labelText := l.labelText,
      accessionNumber := accessionNumber })

/-! ## 4.5 Segment Normalizer: `clean_values_in_segment`
(_utils.py lines 235-270) -/

/-- One output row of `clean_values_in_segment`: the merged-facts columns
with `segment` dropped and the two resolved label columns added
(`labelText_segmentAxis`, `labelText_segmentValue`); the intermediate
`segmentAxis`, `segmentValue`, `xlink:label`, `xlink:label_segmentValue`
columns are dropped by the source before returning. -/
structure SegRow where
  labelText : Option String
  startDate : Option Date
  endDate : Option Date
  instant : Option Date
  factValue : String
  unitRef : Option String
  labelText_segmentAxis : Option String
  labelText_segmentValue : String
deriving DecidableEq, Repr

/-- `segmentAxis` of one row: first dict key lower-cased, else the empty
string when the cell is not a dict (the no-segment null). -/
def segAxisKey : Option Segment → String
  | none => ""
  | some ps => toLowerStr (ps.headD ("", "")).1

/-- `segmentValue` of one row: first dict value lower-cased, else the empty
string. -/
def segValueKey : Option Segment → String
  | none => ""
  | some ps => toLowerStr (ps.headD ("", "")).2

/-- The `(xlink:label, labelText)` lookup pairs: `labels_df` restricted to
role `label` and projected to those two columns. -/
def labelPairs (labels_df : List LabelRow) : List (String × Option String) :=
  (labels_df.filter (fun l => l.xlinkRole = "label")).map
    (fun l => (l.xlinkLabel, l.labelText))

/-- The rows produced from one input row by the two successive left merges
(axis key, then value key) and the `fillna` of `labelText_segmentValue`
with `segmentValue`. -/
def segRowsFor (pairs : List (String × Option String)) (r : MergedRow) : List SegRow :=
  let ax := segAxisKey r.segment
  let va := segValueKey r.segment
  let axMatches := pairs.filter (fun p => p.1 = ax)
  let vaMatches := pairs.filter (fun p => p.1 = va)
  let axTexts : List (Option String) :=
    if axMatches.isEmpty then [none] else axMatches.map (fun p => p.2)
  let vaTexts : List (Option String) :=
    if vaMatches.isEmpty then [none] else vaMatches.map (fun p => p.2)
  axTexts.flatMap (fun ta => vaTexts.map (fun tv =>
    { labelText := r.labelText, startDate := r.startDate, endDate := r.endDate,
      instant := r.instant, factValue := r.factValue, unitRef := r.unitRef,
      labelText_segmentAxis := ta,
      labelText_segmentValue := tv.getD va }))

/-- `clean_values_in_segment`: split the segment dict into axis/value keys
(empty string when no segment), re-resolve both through the role-label
lookup, fill the missing value texts with the value key.  A present but
empty segment dict makes `list(x.keys())[0]` raise IndexError. -/
def clean_values_in_segment (merged_facts : List MergedRow) (labels_df : List LabelRow) :
    Except String (List SegRow) :=
  if merged_facts.any (fun r => r.segment = some []) then
    Except.error "IndexError: list index out of range"
  else
    Except.ok (merged_facts.flatMap (segRowsFor (labelPairs labels_df)))

/-! ## 4.4 / 4.9 Fact Merger and Batch Orchestrator: `get_filing_facts`
(_utils.py lines 21-199)

The `TickerData` collaborator is abstracted as a record of fallible
functions: each per-filing call the orchestrator makes is a field returning
`Except String`, an error standing for the exception the call raises (for
`get_file_data` the source explicitly re-raises parse failures; for the
scraping helpers the error covers any exception inside the corresponding
try block up to the point the local frame variable would be assigned).
Python locals that survive loop iterations (`context_df`, `labels`,
`merged_facts`) are carried in the loop state as `Option` values, `none`
standing for a name that was never assigned (referencing it raises
NameError); `all_merged_facts` is `none` while it is still the fresh
column-less `pd.DataFrame()`, on which the final `labelText` selection
raises KeyError. -/

/-- A parsed filing document (opaque to the orchestrator). -/
structure Soup where
  markup : String
deriving DecidableEq, Repr

/-- The filing-folder index frame (opaque to the orchestrator). -/
abbrev IndexFrame := List String

/-- One row of the facts frame (`Facts.to_dict` of _dataclasses.py plus the
`accessionNumber` column stamped by the orchestrator). -/
structure FactRow where
  factName : String
  factId : Option String
  contextRef : Option String
  unitRef : Option String
  decimals : Option String
  factValue : String
  accessionNumber : String
deriving DecidableEq, Repr

/-- One row of the context frame (`Context.to_dict` of _dataclasses.py plus
the `accessionNumber` column). -/
structure ContextRow where
  contextId : Option String
  entity : Option String
  segment : Option Segment
  startDate : Option Date
  endDate : Option Date
  instant : Option Date
  accessionNumber : String
deriving DecidableEq, Repr

/-- One row of the metalinks frame (only the fields the orchestrator
touches: the accession stamp). -/
structure MetaRow where
  labelKey : String
  accessionNumber : String
deriving DecidableEq, Repr

/-- One row of the calculation/definition arc frames (`xlink:type == 'arc'`
elements with the accession stamp). -/
structure ArcRow where
  xlinkType : String
  xlinkRole : String
  xlinkLabel : String
  labelText : Option String
  accessionNumber : String
deriving DecidableEq, Repr

/-- The arc stage of lines 146-168: restrict to arcs and stamp the
accession number. -/
def processArcs (raw : List LabelRaw) (accessionNumber : String) : List ArcRow :=
  (raw.filter (fun l => l.xlinkType = "arc")).map (fun l =>
    { xlinkType := l.xlinkType, xlinkRole := l.xlinkRole,
      xlinkLabel := l.xlinkLabel, labelText := l.labelText,
      accessionNumber := accessionNumber })

/-- A filing descriptor (the dict rows of `filings_to_scrape`). -/
structure Filing where
  form : String
  filingDate : Date
  accessionNumber : String
  folder_url : String
  file_url : String
deriving DecidableEq, Repr

/-- One failure-log entry (the dict appended to `failed_folders`). -/
structure FailureRecord where
  folder_url : String
  accessionNumber : String
  error : String
  filingDate : Date
deriving DecidableEq, Repr

/-- Build the failure record the orchestrator appends for `file`. -/
def failRec (file : Filing) (msg : String) : FailureRecord :=
  { folder_url := file.folder_url, accessionNumber := file.accessionNumber,
    error := msg, filingDate := file.filingDate }

/-- The abstract `TickerData` collaborator (see the section comment). -/
structure Ticker where
  get_file_data : String → Except String Soup
  search_facts : Soup → Except String (List FactRow)
  search_context : Soup → Except String (List ContextRow)
  get_filing_folder_index : String → Except String IndexFrame
  get_metalinks : String → Except String (List MetaRow)
  get_elements : String → IndexFrame → String → Except String (List LabelRaw)

/-- Row of the facts-with-context left merge (line 173; the suffixed
accession columns dropped at lines 175-176 are omitted throughout). -/
structure FCRow where
  factName : String
  factId : Option String
  contextRef : Option String
  unitRef : Option String
  decimals : Option String
  factValue : String
  contextId : Option String
  entity : Option String
  segment : Option Segment
  startDate : Option Date
  endDate : Option Date
  instant : Option Date
deriving DecidableEq, Repr

/-- Row after the second left merge with the role-label rows (line 174). -/
structure FCLRow where
  factName : String
  factId : Option String
  contextRef : Option String
  unitRef : Option String
  decimals : Option String
  factValue : String
  contextId : Option String
  entity : Option String
  segment : Option Segment
  startDate : Option Date
  endDate : Option Date
  instant : Option Date
  xlinkType : Option String
  xlinkRole : Option String
  xlinkLabel : Option String
  xlinkLabelOriginal : Option String
  labelText : Option String
  labelAccession : Option String
deriving DecidableEq, Repr

/-- Pandas join-key equality.  Pandas `merge`, unlike SQL, matches null
keys against each other (documented behaviour: if both key columns contain
rows where the key is a null value, those rows are matched), so this is
plain equality of the nullable keys: a fact with a null `contextRef` joins
every context with a null `contextId`. -/
def contextKeyMatches (f : FactRow) (c : ContextRow) : Bool :=
  f.contextRef = c.contextId

/-- Combine a fact row with a matching context row. -/
def joinFC (f : FactRow) (c : ContextRow) : FCRow :=
  { factName := f.factName, factId := f.factId, contextRef := f.contextRef,
    unitRef := f.unitRef, decimals := f.decimals, factValue := f.factValue,
    contextId := c.contextId, entity := c.entity, segment := c.segment,
    startDate := c.startDate, endDate := c.endDate, instant := c.instant }

/-- Null-extend a fact row that matched no context. -/
def joinFCnull (f : FactRow) : FCRow :=
  { factName := f.factName, factId := f.factId, contextRef := f.contextRef,
    unitRef := f.unitRef, decimals := f.decimals, factValue := f.factValue,
    contextId := none, entity := none, segment := none,
    startDate := none, endDate := none, instant := none }

/-- `facts_df.merge(context_df, how='left', left_on='contextRef',
right_on='contextId')`. -/
def leftMergeFactsContext (facts : List FactRow) (contexts : List ContextRow) :
    List FCRow :=
  facts.flatMap (fun f =>
    let ms := contexts.filter (fun c => contextKeyMatches f c)
    if ms.isEmpty then [joinFCnull f] else ms.map (joinFC f))

/-- Combine a joined row with a matching label row. -/
def joinFL (r : FCRow) (l : LabelRow) : FCLRow :=
  { factName := r.factName, factId := r.factId, contextRef := r.contextRef,
    unitRef := r.unitRef, decimals := r.decimals, factValue := r.factValue,
    contextId := r.contextId, entity := r.entity, segment := r.segment,
    startDate := r.startDate, endDate := r.endDate, instant := r.instant,
    xlinkType := some l.xlinkType, xlinkRole := some l.xlinkRole,
    xlinkLabel := some l.xlinkLabel, xlinkLabelOriginal := some l.xlinkLabelOriginal,
    labelText := l.labelText, labelAccession := some l.accessionNumber }

/-- Null-extend a joined row that matched no label. -/
def joinFLnull (r : FCRow) : FCLRow :=
  { factName := r.factName, factId := r.factId, contextRef := r.contextRef,
    unitRef := r.unitRef, decimals := r.decimals, factValue := r.factValue,
    contextId := r.contextId, entity := r.entity, segment := r.segment,
    startDate := r.startDate, endDate := r.endDate, instant := r.instant,
    xlinkType := none, xlinkRole := none, xlinkLabel := none,
    xlinkLabelOriginal := none, labelText := none, labelAccession := none }

/-- `.merge(labels.query("xlink:role == 'label'"), how='left',
left_on='factName', right_on='xlink:label')`. -/
def leftMergeLabels (rows : List FCRow) (labels : List LabelRow) : List FCLRow :=
  let lab := labels.filter (fun l => l.xlinkRole = "label")
  rows.flatMap (fun r =>
    let ms := lab.filter (fun l => l.xlinkLabel = r.factName)
    if ms.isEmpty then [joinFLnull r] else ms.map (joinFL r))

/-- The per-filing merge of line 173-174. -/
def mergeFactsContextLabels (facts : List FactRow) (contexts : List ContextRow)
    (labels : List LabelRow) : List FCLRow :=
  leftMergeLabels (leftMergeFactsContext facts contexts) labels

/-- Lines 196-197: drop the rows with null `labelText` and project onto the
seven output columns. -/
def projectMergedRow (r : FCLRow) : MergedRow :=
  { labelText := r.labelText, segment := r.segment, startDate := r.startDate,
    endDate := r.endDate, instant := r.instant, factValue := r.factValue,
    unitRef := r.unitRef }

/-- Finalize the accumulated merged-facts frame (lines 196-197). -/
def finalizeMergedFacts (rows : List FCLRow) : List MergedRow :=
  (rows.filter (fun r => r.labelText.isSome)).map projectMergedRow

/-- The loop state of `get_filing_facts`: the accumulator frames, the
failure log, and the Python locals that persist across loop iterations. -/
structure LoopState where
  all_labels : List LabelRow
  all_calc : List ArcRow
  all_defn : List ArcRow
  all_context : List ContextRow
  all_facts : List FactRow
  all_metalinks : List MetaRow
  all_merged_facts : Option (List FCLRow)
  failed_folders : List FailureRecord
  context_df : Option (List ContextRow)
  labels : Option (List LabelRow)
  merged_facts : Option (List FCLRow)
deriving DecidableEq, Repr

/-- The state at line 51-59: empty accumulators, unassigned locals. -/
def initState : LoopState :=
  { all_labels := [], all_calc := [], all_defn := [], all_context := [],
    all_facts := [], all_metalinks := [], all_merged_facts := none,
    failed_folders := [], context_df := none, labels := none,
    merged_facts := none }

/-- The skip guard of line 62:
`(form != '10-Q' or form != '10-K') and filingDate < datetime(2009, 1, 1)`. -/
def skipGuard (form : String) (filingDate : Date) : Bool :=
  (decide (form ≠ "10-Q") || decide (form ≠ "10-K")) &&
    decide (filingDate < jan1of2009)

/-- The facts stage (lines 73-87): on success, stamp the accession number,
accumulate into `all_facts` and also return the frame for the merge; on an
exception, append a FailureRecord and leave `facts_list` empty. -/
def stageFacts (t : Ticker) (file : Filing) (soup : Soup) (σ : LoopState) :
    LoopState × List FactRow :=
  match t.search_facts soup with
  | Except.ok fl =>
    let facts_df := fl.map (fun (f : FactRow) =>
      { f with accessionNumber := file.accessionNumber })
    ({ σ with all_facts := σ.all_facts ++ facts_df }, facts_df)
  | Except.error e =>
    ({ σ with failed_folders := σ.failed_folders ++
        [failRec file ("Failed to scrape facts for " ++ file.folder_url ++ "..." ++ e)] },
     [])

/-- The context stage (lines 94-108): on success, assign the `context_df`
local and accumulate; on an exception, append a FailureRecord (the local
keeps its previous value). -/
def stageContext (t : Ticker) (file : Filing) (soup : Soup) (σ : LoopState) :
    LoopState :=
  match t.search_context soup with
  | Except.ok cl =>
    let context_df := cl.map (fun (c : ContextRow) =>
      { c with accessionNumber := file.accessionNumber })
    { σ with all_context := σ.all_context ++ context_df,
             context_df := some context_df }
  | Except.error e =>
    { σ with failed_folders := σ.failed_folders ++
        [failRec file ("Failed to scrape context for " ++ file.folder_url ++ "..." ++ e)] }

/-- The metalinks stage (lines 112-123). -/
def stageMetalinks (t : Ticker) (file : Filing) (σ : LoopState) : LoopState :=
  match t.get_metalinks (file.folder_url ++ "/MetaLinks.json") with
  | Except.ok ml =>
    { σ with all_metalinks := σ.all_metalinks ++
        ml.map (fun (m : MetaRow) => { m with accessionNumber := file.accessionNumber }) }
  | Except.error e =>
    { σ with failed_folders := σ.failed_folders ++
        [failRec file ("Failed to scrape metalinks for " ++ file.folder_url ++ "..." ++ e)] }

/-- The labels stage (lines 125-144): on success, assign the `labels` local
and accumulate. -/
def stageLabels (t : Ticker) (file : Filing) (index_df : IndexFrame)
    (σ : LoopState) : LoopState :=
  match t.get_elements file.folder_url index_df "_lab" with
  | Except.ok raw =>
    let labels := processLabels raw file.accessionNumber
    { σ with all_labels := σ.all_labels ++ labels, labels := some labels }
  | Except.error e =>
    { σ with failed_folders := σ.failed_folders ++
        [failRec file ("Failed to scrape labels for " ++ file.folder_url ++ "..." ++ e)] }

/-- The calculations stage (lines 146-156). -/
def stageCalc (t : Ticker) (file : Filing) (index_df : IndexFrame)
    (σ : LoopState) : LoopState :=
  match t.get_elements file.folder_url index_df "_cal" with
  | Except.ok raw =>
    { σ with all_calc := σ.all_calc ++ processArcs raw file.accessionNumber }
  | Except.error e =>
    { σ with failed_folders := σ.failed_folders ++
        [failRec file ("Failed to scrape calc for " ++ file.folder_url ++ "..." ++ e)] }

/-- The definitions stage (lines 158-168). -/
def stageDefn (t : Ticker) (file : Filing) (index_df : IndexFrame)
    (σ : LoopState) : LoopState :=
  match t.get_elements file.folder_url index_df "_def" with
  | Except.ok raw =>
    { σ with all_defn := σ.all_defn ++ processArcs raw file.accessionNumber }
  | Except.error e =>
    { σ with failed_folders := σ.failed_folders ++
        [failRec file ("Failed to scrape defn for " ++ file.folder_url ++ "..." ++ e)] }

/-- The merge stage (lines 172-185): the merge reads the `context_df` and
`labels` locals, which may hold a previous filing's frames or be unassigned;
on any exception a FailureRecord carrying the interpolated exception text is
appended and the `merged_facts` local keeps its previous value.  The caught
exceptions: referencing a never-assigned local raises NameError
(`context_df` is evaluated first at line 173), and a context frame built
from an empty row list is a column-less `pd.DataFrame`, so merging on its
`contextId` column raises KeyError. -/
def stageMerge (file : Filing) (facts_list : List FactRow) (σ : LoopState) :
    LoopState :=
  match σ.context_df, σ.labels with
  | some context_df, some labels =>
    if context_df.isEmpty then
      { σ with failed_folders := σ.failed_folders ++
          [failRec file ("Failed to merge facts with context and labels for " ++
            file.folder_url ++ "..." ++ "KeyError: contextId")] }
    else
      { σ with merged_facts := some (mergeFactsContextLabels facts_list context_df labels) }
  | none, _ =>
    { σ with failed_folders := σ.failed_folders ++
        [failRec file ("Failed to merge facts with context and labels for " ++
          file.folder_url ++ "..." ++ "NameError: name context_df is not defined")] }
  | some _, none =>
    { σ with failed_folders := σ.failed_folders ++
        [failRec file ("Failed to merge facts with context and labels for " ++
          file.folder_url ++ "..." ++ "NameError: name labels is not defined")] }

/-- Line 187, outside every try block: referencing `merged_facts` raises
NameError when it was never assigned; otherwise the (possibly stale) frame
is concatenated onto the accumulator. -/
def stageAccumulate (σ : LoopState) : Except String LoopState :=
  match σ.merged_facts with
  | none => Except.error "NameError: name merged_facts is not defined"
  | some m =>
    Except.ok { σ with all_merged_facts := some ((σ.all_merged_facts.getD []) ++ m) }

/-- One iteration of the orchestrator loop (lines 61-194).  An `Except`
error is an exception leaving the iteration: only `get_file_data` (line
71), `get_filing_folder_index` (line 110) and the unguarded reference to
`merged_facts` at line 187 can produce one; the six guarded stages append a
`FailureRecord` instead. -/
def processFile (t : Ticker) (file : Filing) (σ : LoopState) :
    Except String LoopState := do
  if skipGuard file.form file.filingDate then
    return σ
  let soup ← t.get_file_data file.file_url
  let (σ1, facts_list) := stageFacts t file soup σ
  if facts_list.isEmpty then
    return σ1
  let σ2 := stageContext t file soup σ1
  let index_df ← t.get_filing_folder_index file.folder_url
  let σ3 := stageMetalinks t file σ2
  let σ4 := stageLabels t file index_df σ3
  let σ5 := stageCalc t file index_df σ4
  let σ6 := stageDefn t file index_df σ5
  let σ7 := stageMerge file facts_list σ6
  stageAccumulate σ7

/-- The orchestrator loop over the filing list. -/
def processFilings (t : Ticker) : List Filing → LoopState → Except String LoopState
  | [], σ => Except.ok σ
  | file :: rest, σ => do
    let σ1 ← processFile t file σ
    processFilings t rest σ1

/-- The eight outputs of `get_filing_facts`. -/
structure FilingFactsResult where
  all_labels : List LabelRow
  all_calc : List ArcRow
  all_defn : List ArcRow
  all_context : List ContextRow
  all_facts : List FactRow
  all_metalinks : List MetaRow
  all_merged_facts : List MergedRow
  failed_folders : List FailureRecord
deriving DecidableEq, Repr

/-- `get_filing_facts` (lines 21-199): run the loop, then select the rows
with non-null `labelText` and project (a selection that raises KeyError
when `all_merged_facts` is still the fresh column-less frame). -/
def get_filing_facts (t : Ticker) (filings_to_scrape : List Filing) :
    Except String FilingFactsResult := do
  let σ ← processFilings t filings_to_scrape initState
  match σ.all_merged_facts with
  | none => Except.error "KeyError: labelText"
  | some m =>
    return { all_labels := σ.all_labels, all_calc := σ.all_calc,
             all_defn := σ.all_defn, all_context := σ.all_context,
             all_facts := σ.all_facts, all_metalinks := σ.all_metalinks,
             all_merged_facts := finalizeMergedFacts m,
             failed_folders := σ.failed_folders }

/-! ## Concrete fixtures used by witnesses and counterexamples -/

/-- A merged row whose raw value carries a trailing newline. -/
def rowNewline : MergedRow :=
  { labelText := some "Revenues", segment := none, startDate := none,
    endDate := none, instant := none, factValue := "5\n", unitRef := none }

/-- A merged row whose context carries both a duration and an instant. -/
def rowBoth : MergedRow :=
  { labelText := some "NetIncome", segment := none, startDate := some 19358,
    endDate := some 19722, instant := some 19722, factValue := "100",
    unitRef := some "usd" }

/-- A malformed merged row with neither a duration nor an instant. -/
def rowNeither : MergedRow :=
  { labelText := some "Revenues", segment := none, startDate := none,
    endDate := none, instant := none, factValue := "7", unitRef := none }

/-- A duration row spanning 89 days (2022-01-01 to 2022-03-31 shifted to
relative day numbers). -/
def row89 : MergedRow :=
  { labelText := some "Revenues", segment := none, startDate := some 18993,
    endDate := some 19082, instant := none, factValue := "500", unitRef := none }

/-- A plain duplicate-prone row for the frame-heap fixture. -/
def rowPlain : MergedRow :=
  { labelText := some "Assets", segment := none, startDate := none,
    endDate := none, instant := some 19722, factValue := "1", unitRef := none }

/-- A two-row frame heap holding one frame with a duplicated row. -/
def heapPlain : FrameHeap := ⟨[[rowPlain, rowPlain]]⟩

/-- A merged row carrying a one-pair segment with camel-case member text. -/
def rowSegMember : MergedRow :=
  { labelText := some "Revenues", segment :=
      some [("us-gaap:ProductOrServiceAxis", "us-gaap:ProductMember")],
    startDate := some 18993, endDate := some 19082, instant := none,
    factValue := "500", unitRef := none }

/-- A one-frame heap whose frame holds a dict-segmented row. -/
def heapSeg : FrameHeap := ⟨[[rowSegMember]]⟩

/-- The last row of `rows` carrying the given dedup key, if any: the
occurrence appearing latest in processing order. -/
def lastWith (rows : List MergedRow)
    (k : Option String × Option Segment × Option Date × Option Date × Option Date × String) :
    Option MergedRow :=
  rows.reverse.find? (fun r => dedupKey r = k)

/-- A fact row whose contextRef matches no context. -/
def exFact : FactRow :=
  { factName := "us-gaap:revenues", factId := none, contextRef := some "c9",
    unitRef := some "usd", decimals := some "-3", factValue := "500",
    accessionNumber := "0003" }

/-- A collaborator stub whose calls all succeed with empty results. -/
def stubTicker : Ticker :=
  { get_file_data := fun _ => Except.ok { markup := "" },
    search_facts := fun _ => Except.ok [],
    search_context := fun _ => Except.ok [],
    get_filing_folder_index := fun _ => Except.ok [],
    get_metalinks := fun _ => Except.ok [],
    get_elements := fun _ _ _ => Except.ok [] }

/-- A collaborator stub whose document fetch/parse raises. -/
def badTicker : Ticker :=
  { stubTicker with get_file_data := fun _ => Except.error "lxml parse failure" }

/-- A collaborator stub whose facts scraping stage raises. -/
def failTicker : Ticker :=
  { stubTicker with
    get_file_data := fun _ => Except.ok { markup := "doc" },
    search_facts := fun _ => Except.error "boom" }

/-- A filing filed before 2009-01-01. -/
def filingOld : Filing :=
  { form := "10-K", filingDate := 0, accessionNumber := "0000-OLD",
    folder_url := "folder-old", file_url := "file-old" }

/-- A filing filed on 2009-01-01 (not skipped by the guard). -/
def filingNew : Filing :=
  { form := "10-Q", filingDate := jan1of2009, accessionNumber := "0001-NEW",
    folder_url := "folder-new", file_url := "file-new" }

/-! ## Theorems -/

lemma except_bind_ok {α β : Type} (a : α) (f : α → Except String β) :
    (Except.ok a : Except String α) >>= f = f a := rfl

/-! ### C2: duplicate synonyms in the translator table -/

lemma find?_map_overwrite (m : List (String × String)) (k v q : String) (hqk : q ≠ k) :
    List.find? (fun p => p.1 = q)
        (m.map (fun p => if p.1 = k then (k, v) else p)) =
      List.find? (fun p => p.1 = q) m := by
  induction m with
  | nil => rfl
  | cons p m ih =>
    simp only [List.map_cons, List.find?_cons]
    by_cases hpk : p.1 = k
    · rw [if_pos hpk]
      have h1 : decide ((k, v).1 = q) = false :=
        decide_eq_false (fun h => hqk h.symm)
      have h2 : decide (p.1 = q) = false :=
        decide_eq_false (fun h => hqk (hpk ▸ h).symm)
      simp only [h1, h2]
      exact ih
    · rw [if_neg hpk]
      cases hpq : decide (p.1 = q) with
      | false => simp only [hpq]; exact ih
      | true => simp only [hpq]

lemma find?_map_overwrite_mem (m : List (String × String)) (k v : String)
    (hmem : ∃ p ∈ m, p.1 = k) :
    List.find? (fun p => p.1 = k)
        (m.map (fun p => if p.1 = k then (k, v) else p)) = some (k, v) := by
  induction m with
  | nil =>
    rcases hmem with ⟨p, hp, _⟩
    cases hp
  | cons a m ih =>
    simp only [List.map_cons, List.find?_cons]
    by_cases hak : a.1 = k
    · rw [if_pos hak]
      simp
    · rw [if_neg hak]
      have hd : decide (a.1 = k) = false := decide_eq_false hak
      simp only [hd]
      apply ih
      rcases hmem with ⟨p, hp, hpk⟩
      rcases List.mem_cons.mp hp with h | h
      · exact absurd (h ▸ hpk) hak
      · exact ⟨p, h, hpk⟩

lemma find?_append_not_mem (m : List (String × String)) (k v : String)
    (hmem : ∀ p ∈ m, p.1 ≠ k) :
    List.find? (fun p => p.1 = k) (m ++ [(k, v)]) = some (k, v) := by
  rw [List.find?_append]
  have hnone : List.find? (fun p => p.1 = k) m = none := by
    rw [List.find?_eq_none]
    intro p hp
    simpa using hmem p hp
  rw [hnone]
  simp

lemma dictGet_dictInsert (m : List (String × String)) (k v q : String) :
    dictGet (dictInsert m k v) q = if q = k then some v else dictGet m q := by
  unfold dictInsert dictGet
  by_cases hmem : m.any (fun p => p.1 = k) = true
  · rw [if_pos hmem]
    by_cases hqk : q = k
    · subst hqk
      rcases List.any_eq_true.mp hmem with ⟨p, hp, hpk⟩
      rw [if_pos rfl, find?_map_overwrite_mem m q v ⟨p, hp, of_decide_eq_true hpk⟩]
      rfl
    · rw [if_neg hqk, find?_map_overwrite m k v q hqk]
  · rw [if_neg hmem]
    by_cases hqk : q = k
    · subst hqk
      rw [if_pos rfl, find?_append_not_mem]
      · rfl
      · intro p hp hpk
        exact hmem (List.any_eq_true.mpr ⟨p, hp, decide_eq_true hpk⟩)
    · rw [if_neg hqk, List.find?_append]
      have h2 : List.find? (fun p => p.1 = q) [(k, v)] = none := by
        simp only [List.find?_cons, List.find?_nil]
        have hd : decide ((k, v).1 = q) = false :=
          decide_eq_false (fun h => hqk h.symm)
        simp [hd]
      rw [h2]
      cases hfm : List.find? (fun p => p.1 = q) m <;> rfl

lemma dictGet_foldl_assignments (as : List (String × String))
    (init : List (String × String)) (q : String) :
    dictGet (as.foldl (fun rm a => dictInsert rm a.1 a.2) init) q =
      (match as.reverse.find? (fun p => p.1 = q) with
       | some p => some p.2
       | none => dictGet init q) := by
  induction as generalizing init with
  | nil => simp
  | cons a as ih =>
    simp only [List.foldl_cons, List.reverse_cons]
    rw [ih, List.find?_append]
    cases hfind : as.reverse.find? (fun p => p.1 = q) with
    | some p => rfl
    | none =>
      rw [dictGet_dictInsert]
      by_cases hq : q = a.1
      · have hd : decide (a.1 = q) = true := decide_eq_true hq.symm
        simp [List.find?_cons, hd, if_pos hq]
      · have hd : decide (a.1 = q) = false :=
          decide_eq_false (fun h => hq h.symm)
        simp [List.find?_cons, hd, if_neg hq]

lemma reverse_standard_mapping_eq_foldl (m : List (String × List String)) :
    reverse_standard_mapping m =
      (synonymAssignments m).foldl (fun rm a => dictInsert rm a.1 a.2) [] := by
  unfold reverse_standard_mapping synonymAssignments
  generalize [] = init
  induction m generalizing init with
  | nil => simp
  | cons p m ih =>
    simp only [List.foldl_cons, List.flatMap_cons, List.foldl_append, List.foldl_map]
    exact ih _

/-- C2 (amended): `reverse_standard_mapping` never raises; it returns the
inverse map in which a synonym that appears under several canonical names
is silently overwritten, ending up mapped to the canonical name of its last
assignment in table order. -/
theorem reverse_standard_mapping_last_wins
    (m : List (String × List String)) (tag : String) :
    dictGet (reverse_standard_mapping m) tag = lastAssignment m tag := by
  rw [reverse_standard_mapping_eq_foldl, dictGet_foldl_assignments]
  unfold lastAssignment
  cases hfind : (synonymAssignments m).reverse.find? (fun p => p.1 = tag) <;>
    simp [dictGet]

set_option maxRecDepth 20000 in
/-- C2 (counterexample): the shipped table `STANDARD_NAME_MAPPING` lists
the synonym `""` under many different canonical names, yet constructing the
inverse mapping does not raise: it returns a map in which the duplicate
synonym was overwritten down to the last canonical group. -/
theorem reverse_standard_mapping_overwrites_duplicate :
    hasDuplicateSynonym STANDARD_NAME_MAPPING = true ∧
    dictGet (reverse_standard_mapping STANDARD_NAME_MAPPING) "" =
      some "EV to Operating cash flow" ∧
    dictGet (reverse_standard_mapping STANDARD_NAME_MAPPING) "" ≠
      some "Gross Profit" := by
  refine ⟨by decide, by decide, by decide⟩

/-! ### C3: the numeric value filter -/

lemma mem_of_getLast?_eq {l : List Char} {a : Char} (h : l.getLast? = some a) :
    a ∈ l := by
  rcases List.mem_getLast?_eq_getLast (Option.mem_def.mpr h) with ⟨hne, heq⟩
  rw [heq]
  exact List.getLast_mem hne

lemma matchesUnsigned_newline {cs : List Char} (h : cs.getLast? = some '\n') :
    matchesUnsigned cs = false := by
  unfold matchesUnsigned
  simp only
  have hsplit := List.takeWhile_append_dropWhile Char.isDigit cs
  split
  · -- dropWhile = [], so every character of cs is a digit
    rename_i heq
    rw [heq, List.append_nil] at hsplit
    have hmem : '\n' ∈ cs := mem_of_getLast?_eq h
    rw [← hsplit] at hmem
    have hdig : Char.isDigit '\n' = true := List.mem_takeWhile_imp hmem
    exact absurd hdig (by decide)
  · -- dropWhile = '.' :: fs
    rename_i fs heq
    rcases fs with _ | ⟨f, fs⟩
    · simp
    · rw [heq] at hsplit
      rw [← hsplit, List.getLast?_append, List.getLast?_cons_cons] at h
      rcases hgl : (f :: fs).getLast? with _ | x
      · rw [List.getLast?_eq_none_iff] at hgl
        cases hgl
      · rw [hgl, Option.or_some] at h
        have hx : x = '\n' := by injection h
        subst hx
        have hmem : '\n' ∈ f :: fs := mem_of_getLast?_eq hgl
        have hall : (f :: fs).all Char.isDigit = false := by
          rw [Bool.eq_false_iff]
          intro hall
          exact absurd (List.all_eq_true.mp hall '\n' hmem) (by decide)
        simp [hall]
  · -- dropWhile starts with a non-digit that is not a dot
    simp

lemma matchesSignedChars_newline {cs : List Char} (h : cs.getLast? = some '\n') :
    matchesSignedChars cs = false := by
  rw [matchesSignedChars.eq_def]
  split
  · rename_i rest
    rcases rest with _ | ⟨r, rs⟩
    · simp at h
    · rw [List.getLast?_cons_cons] at h
      exact matchesUnsigned_newline h
  · exact matchesUnsigned_newline h

lemma keep_iff_strip (v : String) :
    (searchSignedDecimal v && decide (v ≠ "") && decide (v ≠ "-")) =
      matchesSignedChars (dropTrailingNewline v.data) := by
  unfold searchSignedDecimal dropTrailingNewline
  by_cases hnl : v.data.getLast? = some '\n'
  · rw [if_pos hnl, matchesSignedChars_newline hnl, decide_eq_true hnl]
    cases hm : matchesSignedChars v.data.dropLast with
    | false => simp [hm]
    | true =>
      have hv1 : v ≠ "" := by
        intro hv
        subst hv
        exact absurd hnl (by decide)
      have hv2 : v ≠ "-" := by
        intro hv
        subst hv
        exact absurd hnl (by decide)
      simp [hm, hv1, hv2]
  · rw [if_neg hnl, decide_eq_false hnl]
    cases hm : matchesSignedChars v.data with
    | false => simp [hm]
    | true =>
      have hv1 : v ≠ "" := by
        intro hv
        subst hv
        exact absurd hm (by decide)
      have hv2 : v ≠ "-" := by
        intro hv
        subst hv
        exact absurd hm (by decide)
      simp [hm, hv1, hv2]

/-- C3 (amended): `clean_values_in_facts` keeps a row if and only if its
`factValue`, after removing at most one trailing newline character, matches
`-?\d+(\.\d+)?` in its entirety (the emptiness and bare-minus conditions
are subsumed); kept rows get the exact decimal value of that text.  The
difference from the claim as stated is the trailing-newline tolerance of
`re.search` with a `$` anchor. -/
theorem clean_values_in_facts_amended (merged_facts : List MergedRow) :
    clean_values_in_facts merged_facts =
      (merged_facts.filter (fun r =>
          matchesSignedChars (dropTrailingNewline r.factValue.data))).map castRow := by
  unfold clean_values_in_facts
  congr 1
  apply List.filter_congr
  intro r _
  exact keep_iff_strip r.factValue

/-- C3 (counterexample): the row with `factValue = "5\n"` is kept by
`clean_values_in_facts` (and cast to 5.0) although that string does not
match `^-?\d+(\.\d+)?$` in its entirety and is neither empty nor a bare
minus sign, refuting the claimed if-and-only-if. -/
theorem clean_values_in_facts_keeps_trailing_newline :
    clean_values_in_facts [rowNewline] = [castRow rowNewline] ∧
    (castRow rowNewline).factValue = 5 ∧
    matchesSignedDecimal "5\n" = false ∧
    "5\n" ≠ "" ∧ "5\n" ≠ "-" := by
  refine ⟨by decide, by decide, by decide, by decide, by decide⟩

/-! ### C4: dedup keeps exactly the last occurrence of each key -/

lemma dropDuplicatesKeepLast_sublist (rows : List MergedRow) :
    (dropDuplicatesKeepLast rows).Sublist rows := by
  induction rows with
  | nil => exact List.Sublist.refl []
  | cons r rest ih =>
    unfold dropDuplicatesKeepLast
    split
    · exact ih.cons r
    · exact ih.cons₂ r

lemma split_core_ok (rows : List MergedRow)
    (hseg : ∀ r ∈ rows, r.segment = none) :
    split_core rows = Except.ok (splitTables rows) := by
  unfold split_core
  rw [if_neg]
  intro hany
  rcases List.any_eq_true.mp hany with ⟨r, hr, hsome⟩
  rw [hseg r hr] at hsome
  cases hsome

lemma dedup_filter_eq_lastWith (rows : List MergedRow)
    (k : Option String × Option Segment × Option Date × Option Date × Option Date × String) :
    (dropDuplicatesKeepLast rows).filter (fun r => dedupKey r = k) =
      (lastWith rows k).toList := by
  unfold lastWith
  induction rows with
  | nil => rfl
  | cons r rest ih =>
    rw [List.reverse_cons, List.find?_append]
    unfold dropDuplicatesKeepLast
    split
    · rename_i hany
      cases hf : rest.reverse.find? (fun q => decide (dedupKey q = k)) with
      | some x =>
        rw [hf] at ih
        rw [Option.or_some]
        exact ih
      | none =>
        have hrk : ¬dedupKey r = k := by
          intro hrk
          rcases List.any_eq_true.mp hany with ⟨q, hq, hqk⟩
          have hqk2 : dedupKey q = dedupKey r := of_decide_eq_true hqk
          exact (List.find?_eq_none.mp hf q (List.mem_reverse.mpr hq))
            (decide_eq_true (hqk2.trans hrk))
        have hfr : List.find? (fun q => decide (dedupKey q = k)) [r] = none := by
          simp [List.find?, decide_eq_false hrk]
        rw [hf] at ih
        rw [Option.none_or, hfr]
        exact ih
    · rename_i hany
      rw [List.filter_cons]
      by_cases hrk : dedupKey r = k
      · have hnone : ∀ q ∈ rest, ¬dedupKey q = k := by
          intro q hq hqk
          exact hany (List.any_eq_true.mpr ⟨q, hq, decide_eq_true (hqk.trans hrk.symm)⟩)
        have hfnone : rest.reverse.find? (fun q => decide (dedupKey q = k)) = none := by
          rw [List.find?_eq_none]
          intro q hq
          simpa using hnone q (List.mem_reverse.mp hq)
        have hfilter : (dropDuplicatesKeepLast rest).filter
            (fun q => decide (dedupKey q = k)) = [] := by
          rw [List.filter_eq_nil_iff]
          intro q hq
          simpa using hnone q ((dropDuplicatesKeepLast_sublist rest).subset hq)
        have hfr : List.find? (fun q => decide (dedupKey q = k)) [r] = some r := by
          simp [List.find?, decide_eq_true hrk]
        rw [hfnone, Option.none_or, hfr]
        simp [decide_eq_true hrk, hfilter]
      · have hfr : List.find? (fun q => decide (dedupKey q = k)) [r] = none := by
          simp [List.find?, decide_eq_false hrk]
        rw [hfr, Option.or_none]
        simp only [decide_eq_false hrk, Bool.false_eq_true, if_false]
        exact ih

/-- C4 (amended): the dedup law holds on exactly the frames the call
completes on, those whose segment column is entirely null (on any other
frame `drop_duplicates` raises `TypeError` while hashing the dict segment
cells, deduplicating nothing): `split_facts_into_start_instant` returns
normally there, and restricted to any dedup key its deduplicated frame
consists of exactly the last occurrence of that key in processing order —
so of two rows with identical tuples exactly the later one survives, and a
row whose tuple is unique is retained. -/
theorem split_dedup_keeps_last (rows : List MergedRow)
    (k : Option String × Option Segment × Option Date × Option Date × Option Date × String)
    (hseg : ∀ r ∈ rows, r.segment = none) :
    split_core rows = Except.ok (splitTables rows) ∧
    ((splitTables rows).1).filter (fun r => dedupKey r = k) =
      (lastWith rows k).toList :=
  ⟨split_core_ok rows hseg, dedup_filter_eq_lastWith rows k⟩

/-- C4 (witness): a concrete null-segment frame with a duplicated row keeps
exactly the later duplicate. -/
theorem split_dedup_keeps_last_witness :
    split_core [rowPlain, rowPlain] = Except.ok (splitTables [rowPlain, rowPlain]) ∧
    ((splitTables [rowPlain, rowPlain]).1).filter
        (fun r => dedupKey r = dedupKey rowPlain) = [rowPlain] := by
  have h := split_dedup_keeps_last [rowPlain, rowPlain] (dedupKey rowPlain) (by decide)
  refine ⟨h.1, ?_⟩
  rw [h.2]
  decide

/-- C4 (counterexample): a frame holding two rows with identical dedup
tuples whose segment cell is a dict — the deduplication does not keep
exactly one of them: `drop_duplicates` raises `TypeError` on the unhashable
dict cells, so the call produces no deduplicated frame at all. -/
theorem split_dedup_raises_on_dict_segment :
    split_core [rowSegMember, rowSegMember] =
      Except.error "TypeError: unhashable type: dict" ∧
    dedupKey rowSegMember = dedupKey rowSegMember := by
  refine ⟨by rfl, rfl⟩

/-! ### C10: the dedup happens in place on the caller's frame -/

/-- C10 (amended): on a frame whose segment column is entirely null the
call completes, returns the caller's own frame object (the same reference)
as its first result, and after the call that object holds the deduplicated
rows, the two derived tables being the projections of `splitTables`; on a
frame with a dict segment cell `drop_duplicates` raises before mutating, so
the function returns no frame and the caller's object is unchanged (the
counterexample). -/
theorem split_facts_into_start_instant_in_place (h : FrameHeap) (mref : FrameRef)
    (hvalid : mref < h.frames.length)
    (hseg : ∀ r ∈ readFrame h mref, r.segment = none) :
    split_facts_into_start_instant h mref =
      Except.ok (writeFrame h mref (dropDuplicatesKeepLast (readFrame h mref)), mref,
        (splitTables (readFrame h mref)).2.1, (splitTables (readFrame h mref)).2.2) ∧
    readFrame (writeFrame h mref (dropDuplicatesKeepLast (readFrame h mref))) mref =
      dropDuplicatesKeepLast (readFrame h mref) := by
  constructor
  · unfold split_facts_into_start_instant
    rw [split_core_ok (readFrame h mref) hseg]
    rfl
  · unfold readFrame writeFrame
    rw [List.getD_eq_getElem?_getD, List.getElem?_set_self hvalid]
    rfl

/-- C10 (witness): on a one-frame heap holding a duplicated null-segment
row, the call returns reference 0 and the deduplicated single row is what
that reference then holds. -/
theorem split_facts_into_start_instant_in_place_witness :
    split_facts_into_start_instant heapPlain 0 =
      Except.ok (writeFrame heapPlain 0 (dropDuplicatesKeepLast (readFrame heapPlain 0)), 0,
        (splitTables (readFrame heapPlain 0)).2.1, (splitTables (readFrame heapPlain 0)).2.2) ∧
    readFrame (writeFrame heapPlain 0 (dropDuplicatesKeepLast (readFrame heapPlain 0))) 0 =
      [rowPlain] := by
  have h := split_facts_into_start_instant_in_place heapPlain 0 (by decide) (by decide)
  refine ⟨h.1, ?_⟩
  rw [h.2]
  decide

/-- C10 (counterexample): on a frame holding a dict-segmented row the call
raises `TypeError` instead of returning the caller's deduplicated frame,
and the heap cell is left unchanged. -/
theorem split_facts_into_start_instant_raises_on_dict_segment :
    split_facts_into_start_instant heapSeg 0 =
      Except.error "TypeError: unhashable type: dict" ∧
    readFrame heapSeg 0 = [rowSegMember] := by
  refine ⟨by rfl, by rfl⟩

/-! ### C8: date shape of the two split tables -/

lemma mem_insertBy {α : Type} {le : α → α → Bool} {a b : α} {l : List α} :
    a ∈ insertBy le b l ↔ a = b ∨ a ∈ l := by
  induction l with
  | nil => simp [insertBy]
  | cons c l ih =>
    unfold insertBy
    split
    · simp
    · rw [List.mem_cons, ih, List.mem_cons]
      tauto

lemma mem_sortBy {α : Type} {le : α → α → Bool} {a : α} {l : List α} :
    a ∈ sortBy le l ↔ a ∈ l := by
  induction l with
  | nil => simp [sortBy]
  | cons b l ih =>
    show a ∈ insertBy le b (sortBy le l) ↔ _
    rw [mem_insertBy, ih, List.mem_cons]

/-- C8 (amended): on the frames the split completes on — segment column
entirely null; on any other frame `drop_duplicates` raises `TypeError`
while hashing the dict segment cells before either table is built — every
duration-table row has both `startDate` and `endDate` populated, every
instant-table row has `instant` populated, and a row with neither populated
lands in neither table, the split returning normally.  A row with both a
duration and an instant, however, appears in both tables, so only this
at-least-one version holds, not the claimed exactly-one. -/
theorem split_tables_date_invariant (merged_facts : List MergedRow)
    (hseg : ∀ r ∈ merged_facts, r.segment = none) :
    split_core merged_facts = Except.ok (splitTables merged_facts) ∧
    (∀ s ∈ (splitTables merged_facts).2.1,
        s.startDate.isSome = true ∧ s.endDate.isSome = true) ∧
    (∀ i ∈ (splitTables merged_facts).2.2, i.instant.isSome = true) ∧
    (∀ r : MergedRow, r.startDate = none ∨ r.endDate = none →
        toStartEndRow r ∉ (splitTables merged_facts).2.1) ∧
    (∀ r : MergedRow, r.instant = none →
        toInstantRow r ∉ (splitTables merged_facts).2.2) := by
  have h1 : ∀ s ∈ (splitTables merged_facts).2.1,
      s.startDate.isSome = true ∧ s.endDate.isSome = true := by
    intro s hs
    have hs2 : s ∈ ((dropDuplicatesKeepLast merged_facts).filter
        (fun r => r.startDate.isSome && r.endDate.isSome)).map toStartEndRow :=
      mem_sortBy.mp hs
    rcases List.mem_map.mp hs2 with ⟨r, hr, rfl⟩
    have hcond := (List.mem_filter.mp hr).2
    simpa using hcond
  have h2 : ∀ i ∈ (splitTables merged_facts).2.2, i.instant.isSome = true := by
    intro i hi
    have hi2 : i ∈ ((dropDuplicatesKeepLast merged_facts).filter
        (fun r => r.instant.isSome)).map toInstantRow := mem_sortBy.mp hi
    rcases List.mem_map.mp hi2 with ⟨r, hr, rfl⟩
    exact (List.mem_filter.mp hr).2
  refine ⟨split_core_ok merged_facts hseg, h1, h2, ?_, ?_⟩
  · intro r hr hmem
    rcases h1 _ hmem with ⟨hsd, hed⟩
    rcases hr with hr | hr
    · rw [show (toStartEndRow r).startDate = r.startDate from rfl, hr] at hsd
      cases hsd
    · rw [show (toStartEndRow r).endDate = r.endDate from rfl, hr] at hed
      cases hed
  · intro r hr hmem
    have hins := h2 _ hmem
    rw [show (toInstantRow r).instant = r.instant from rfl, hr] at hins
    cases hins

/-- C8 (witness): the malformed null-segment row with neither period
populated is excluded from both tables and splitting it returns without
error. -/
theorem split_tables_date_invariant_witness :
    split_core [rowNeither] = Except.ok (splitTables [rowNeither]) ∧
    toStartEndRow rowNeither ∉ (splitTables [rowNeither]).2.1 ∧
    toInstantRow rowNeither ∉ (splitTables [rowNeither]).2.2 :=
  ⟨(split_tables_date_invariant [rowNeither] (by decide)).1,
   (split_tables_date_invariant [rowNeither] (by decide)).2.2.2.1 rowNeither (Or.inl rfl),
   (split_tables_date_invariant [rowNeither] (by decide)).2.2.2.2 rowNeither rfl⟩

/-- C8 (counterexample): a context row carrying both a duration and an
instant is processed without error and reaches both output tables, so the
claimed exactly-one-of property fails on it. -/
theorem split_both_populated_in_both_tables :
    split_core [rowBoth] = Except.ok (splitTables [rowBoth]) ∧
    toStartEndRow rowBoth ∈ (splitTables [rowBoth]).2.1 ∧
    toInstantRow rowBoth ∈ (splitTables [rowBoth]).2.2 ∧
    ¬((rowBoth.instant.isSome = true ∧
        ¬(rowBoth.startDate.isSome = true ∧ rowBoth.endDate.isSome = true)) ∨
      (¬rowBoth.instant.isSome = true ∧
        (rowBoth.startDate.isSome = true ∧ rowBoth.endDate.isSome = true))) := by
  refine ⟨by rfl, by decide, by decide, by decide⟩

/-! ### C5: the 3/6/9/12-month bucket classifier -/

lemma roundHalfEven_int_div (d : ℤ) :
    roundHalfEven ((d : ℚ) / 30.25) = round ((d : ℚ) / 30.25) := by
  set q : ℚ := (d : ℚ) / 30.25 with hq
  have h3025 : (30.25 : ℚ) = 121 / 4 := by norm_num
  have hfrac : q - Int.floor q ≠ 1 / 2 := by
    intro h
    set f : ℤ := Int.floor q with hf
    have hq2 : q = (f : ℚ) + 1 / 2 := by linarith
    have hd : (d : ℚ) = q * 30.25 := by
      rw [hq]
      field_simp
    have hqval : (8 : ℚ) * d = 242 * f + 121 := by
      rw [hd, hq2, h3025]
      ring
    have hint : (8 : ℤ) * d = 242 * f + 121 := by exact_mod_cast hqval
    omega
  have hlow : (Int.floor q : ℚ) ≤ q := Int.floor_le q
  have hhigh : q < Int.floor q + 1 := Int.lt_floor_add_one q
  rw [round_eq]
  unfold roundHalfEven
  simp only
  by_cases hlt : q - Int.floor q < 1 / 2
  · rw [if_pos hlt]
    symm
    rw [Int.floor_eq_iff]
    constructor
    · push_cast
      linarith
    · push_cast
      linarith
  · have hgt : q - Int.floor q > 1 / 2 :=
      lt_of_le_of_ne (not_lt.mp hlt) (Ne.symm hfrac)
    rw [if_neg hlt, if_pos hgt]
    symm
    rw [Int.floor_eq_iff]
    constructor
    · push_cast
      linarith
    · push_cast
      linarith

/-- C5: `get_monthly_period` maps each frame row through `addPeriod`, and
for every row with both dates populated the `Months Ended` bucket is the
3/6/9/12 classification of `round((endDate - startDate).days / 30.25)`,
null for every other rounded value (pandas rounds half to even, but no
whole-day difference divided by 30.25 can land exactly on a half, so this
coincides with ordinary rounding). -/
theorem get_monthly_period_buckets (df : List MergedRow) :
    get_monthly_period df = df.map addPeriod ∧
    ∀ r : MergedRow, ∀ s e : Date, r.startDate = some s → r.endDate = some e →
      (addPeriod r).monthsEnded =
        (if round (((e - s : ℤ) : ℚ) / 30.25) = 3 then some "Three Months Ended"
         else if round (((e - s : ℤ) : ℚ) / 30.25) = 6 then some "Six Months Ended"
         else if round (((e - s : ℤ) : ℚ) / 30.25) = 9 then some "Nine Months Ended"
         else if round (((e - s : ℤ) : ℚ) / 30.25) = 12 then some "Twelve Months Ended"
         else none) := by
  refine ⟨rfl, ?_⟩
  intro r s e hs he
  unfold addPeriod
  rw [hs, he]
  simp only
  rw [roundHalfEven_int_div (e - s)]
  set n : ℤ := round (((e - s : ℤ) : ℚ) / 30.25) with hn
  have hc : ∀ m : ℤ, ((n : ℚ) = (m : ℚ)) = (n = m) := by
    intro m
    simp [Int.cast_inj]
  by_cases h3 : n = 3
  · simp [h3]
  · by_cases h6 : n = 6
    · simp [h6]
    · by_cases h9 : n = 9
      · simp [h9]
      · by_cases h12 : n = 12
        · simp [h12]
        · have c3 : ¬((n : ℚ) = 3) := by
            intro h
            exact h3 (by exact_mod_cast h)
          have c6 : ¬((n : ℚ) = 6) := by
            intro h
            exact h6 (by exact_mod_cast h)
          have c9 : ¬((n : ℚ) = 9) := by
            intro h
            exact h9 (by exact_mod_cast h)
          have c12 : ¬((n : ℚ) = 12) := by
            intro h
            exact h12 (by exact_mod_cast h)
          simp [h3, h6, h9, h12, c3, c6, c9, c12]

/-- C5 (witness): an 89-day duration row (2022-01-01 to 2022-03-31) is
bucketed as Three Months Ended, since 89 / 30.25 rounds to 3. -/
theorem get_monthly_period_buckets_witness :
    (addPeriod row89).monthsEnded = some "Three Months Ended" := by
  have h := (get_monthly_period_buckets [row89]).2 row89 18993 19082 rfl rfl
  rw [h]
  norm_num [round_eq]

/-! ### C9: the pre-2009 skip guard -/

lemma formGuard_true (form : String) :
    (decide (form ≠ "10-Q") || decide (form ≠ "10-K")) = true := by
  by_cases h : form = "10-Q"
  · subst h
    decide
  · simp [h]

lemma processFile_skip (t : Ticker) (file : Filing) (σ : LoopState)
    (hguard : skipGuard file.form file.filingDate = true) :
    processFile t file σ = Except.ok σ := by
  unfold processFile
  rw [hguard]
  rfl

/-- C9: a filing dated before 2009-01-01 is skipped before any collaborator
call — the orchestrator result on `file :: rest` equals the result on
`rest` alone for every ticker, so the filing contributes no rows and no
failure record — and the skip fires regardless of the form because the
form-based disjunction of the guard is true for every form string. -/
theorem pre2009_filing_skipped (t : Ticker) (file : Filing) (rest : List Filing)
    (hdate : file.filingDate < jan1of2009) :
    get_filing_facts t (file :: rest) = get_filing_facts t rest ∧
    skipGuard file.form file.filingDate = true ∧
    (∀ form : String, (decide (form ≠ "10-Q") || decide (form ≠ "10-K")) = true) := by
  have hguard : skipGuard file.form file.filingDate = true := by
    unfold skipGuard
    rw [formGuard_true, decide_eq_true hdate]
    rfl
  refine ⟨?_, hguard, formGuard_true⟩
  have hloop : processFilings t (file :: rest) initState =
      processFilings t rest initState := by
    simp only [processFilings, processFile_skip t file initState hguard]
    rfl
  unfold get_filing_facts
  rw [hloop]

/-- C9 (witness): a concrete pre-2009 10-K filing leaves the orchestrator
output unchanged. -/
theorem pre2009_filing_skipped_witness :
    get_filing_facts stubTicker [filingOld] = get_filing_facts stubTicker [] :=
  (pre2009_filing_skipped stubTicker filingOld [] (by decide)).1

/-! ### C1: per-filing failure isolation in the orchestrator -/

/-- C1 (counterexample): a document that fails to fetch or parse is not
recorded as a FailureRecord — the exception from `get_file_data` (raised at
line 71, outside every try block) propagates out of `get_filing_facts`, so
the orchestrator does not return normally. -/
theorem get_filing_facts_fetch_error_propagates :
    get_filing_facts badTicker [filingNew] = Except.error "lxml parse failure" := by
  rfl

/-- C1 (amended): an exception inside the guarded facts-scraping stage is
isolated — the orchestrator appends exactly one FailureRecord carrying that
filing's accession number and continues with the remaining filings on an
otherwise unchanged state — whereas (per the counterexample) an exception
from fetching or parsing the document itself propagates out. -/
theorem facts_stage_failure_isolated (t : Ticker) (file : Filing) (rest : List Filing)
    (σ : LoopState) (soup : Soup) (msg : String)
    (hdate : jan1of2009 ≤ file.filingDate)
    (hfetch : t.get_file_data file.file_url = Except.ok soup)
    (hfacts : t.search_facts soup = Except.error msg) :
    processFilings t (file :: rest) σ =
      processFilings t rest
        { σ with failed_folders := σ.failed_folders ++
            [failRec file ("Failed to scrape facts for " ++ file.folder_url ++ "..." ++ msg)] } := by
  have hguard : skipGuard file.form file.filingDate = false := by
    unfold skipGuard
    rw [decide_eq_false (not_lt.mpr hdate)]
    simp
  have hpf : processFile t file σ = Except.ok
      { σ with failed_folders := σ.failed_folders ++
          [failRec file ("Failed to scrape facts for " ++ file.folder_url ++ "..." ++ msg)] } := by
    have hsf : stageFacts t file soup σ =
        ({ σ with failed_folders := σ.failed_folders ++
            [failRec file ("Failed to scrape facts for " ++ file.folder_url ++ "..." ++ msg)] },
         ([] : List FactRow)) := by
      unfold stageFacts
      rw [hfacts]
    unfold processFile
    rw [hguard]
    show (do
      let soup ← t.get_file_data file.file_url
      let p := stageFacts t file soup σ
      if p.2.isEmpty then
        return p.1
      else do
        let σ2 := stageContext t file soup p.1
        let index_df ← t.get_filing_folder_index file.folder_url
        let σ3 := stageMetalinks t file σ2
        let σ4 := stageLabels t file index_df σ3
        let σ5 := stageCalc t file index_df σ4
        let σ6 := stageDefn t file index_df σ5
        let σ7 := stageMerge file p.2 σ6
        stageAccumulate σ7) = _
    rw [hfetch, except_bind_ok, hsf]
    rfl
  simp only [processFilings]
  rw [hpf, except_bind_ok]

/-- C1 (witness): with a concrete ticker whose facts stage raises, the
batch continues past the failing filing with exactly one FailureRecord. -/
theorem facts_stage_failure_isolated_witness :
    processFilings failTicker [filingNew] initState =
      processFilings failTicker []
        { initState with failed_folders := initState.failed_folders ++
            [failRec filingNew
              ("Failed to scrape facts for " ++ filingNew.folder_url ++ "..." ++ "boom")] } :=
  facts_stage_failure_isolated failTicker filingNew [] initState { markup := "doc" } "boom"
    (by decide) rfl rfl

/-! ### C6: the fact merge -/

/-- C6: the merge is the composition of the two left joins with the final
null-label drop and projection: a fact matching no context is retained
null-extended (its period and segment fields are all null); every fact
yields at least one merged row; every non-null `labelText` comes from an
`xlink:type = resource` element whose role suffix is `label` and whose
normalized key equals the fact tag name; the returned frame is exactly the
join filtered to non-null `labelText` and projected to the seven output
columns (the column set being the `MergedRow` type). -/
theorem fact_merge_contract (facts : List FactRow) (contexts : List ContextRow)
    (raw : List LabelRaw) (acc : String) :
    (∀ f ∈ facts, (∀ c ∈ contexts, contextKeyMatches f c = false) →
        joinFCnull f ∈ leftMergeFactsContext facts contexts) ∧
    (∀ f : FactRow, (joinFCnull f).startDate = none ∧ (joinFCnull f).endDate = none ∧
        (joinFCnull f).instant = none ∧ (joinFCnull f).segment = none) ∧
    (∀ f ∈ facts, ∃ r ∈ leftMergeFactsContext facts contexts,
        r.factName = f.factName ∧ r.factValue = f.factValue) ∧
    (∀ r ∈ mergeFactsContextLabels facts contexts (processLabels raw acc),
        ∀ txt : String, r.labelText = some txt →
        ∃ l ∈ raw, l.xlinkType = "resource" ∧ lastSlashComponent l.xlinkRole = "label" ∧
          normalizeLabelKey l.xlinkLabel = r.factName ∧ l.labelText = some txt) ∧
    (finalizeMergedFacts (mergeFactsContextLabels facts contexts (processLabels raw acc)) =
      ((mergeFactsContextLabels facts contexts (processLabels raw acc)).filter
          (fun r => r.labelText.isSome)).map projectMergedRow) ∧
    (∀ m ∈ finalizeMergedFacts (mergeFactsContextLabels facts contexts (processLabels raw acc)),
        m.labelText.isSome = true) := by
  refine ⟨?_, ?_, ?_, ?_, rfl, ?_⟩
  · intro f hf hnone
    unfold leftMergeFactsContext
    refine List.mem_flatMap.mpr ⟨f, hf, ?_⟩
    have hms : contexts.filter (fun c => contextKeyMatches f c) = [] :=
      List.filter_eq_nil_iff.mpr (fun c hc => by simp [hnone c hc])
    simp [hms]
  · intro f
    exact ⟨rfl, rfl, rfl, rfl⟩
  · intro f hf
    unfold leftMergeFactsContext
    cases hms : contexts.filter (fun c => contextKeyMatches f c) with
    | nil =>
      refine ⟨joinFCnull f, List.mem_flatMap.mpr ⟨f, hf, ?_⟩, rfl, rfl⟩
      simp [hms]
    | cons c cs =>
      refine ⟨joinFC f c, List.mem_flatMap.mpr ⟨f, hf, ?_⟩, rfl, rfl⟩
      simp [hms]
  · intro r hr txt htxt
    unfold mergeFactsContextLabels leftMergeLabels at hr
    rcases List.mem_flatMap.mp hr with ⟨fc, hfc, hbody⟩
    simp only at hbody
    split at hbody
    · rcases List.mem_singleton.mp hbody with rfl
      cases htxt
    · rcases List.mem_map.mp hbody with ⟨l, hl, rfl⟩
      have hl2 := List.mem_filter.mp hl
      have hl3 := List.mem_filter.mp hl2.1
      have hkey : l.xlinkLabel = fc.factName := by simpa using hl2.2
      have hrole : l.xlinkRole = "label" := by simpa using hl3.2
      rcases List.mem_map.mp hl3.1 with ⟨l0, hl0, rfl⟩
      have hl0f := List.mem_filter.mp hl0
      refine ⟨l0, hl0f.1, by simpa using hl0f.2, hrole, ?_, ?_⟩
      · exact hkey
      · exact htxt
  · intro m hm
    unfold finalizeMergedFacts at hm
    rcases List.mem_map.mp hm with ⟨r, hr, rfl⟩
    exact (List.mem_filter.mp hr).2

/-- C6 (witness): a concrete fact with no matching context is retained with
all period and segment fields null. -/
theorem fact_merge_contract_witness :
    joinFCnull exFact ∈ leftMergeFactsContext [exFact] [] ∧
    (joinFCnull exFact).startDate = none ∧ (joinFCnull exFact).segment = none := by
  have h := fact_merge_contract [exFact] [] [] "0003"
  refine ⟨h.1 exFact (by decide) (fun c hc => absurd hc (List.not_mem_nil c)), ?_, ?_⟩
  · exact (h.2.1 exFact).1
  · exact (h.2.1 exFact).2.2.2

/-! ### C7: the segment normalizer -/

/-- C7 (amended): with no row carrying a present-but-empty segment dict
(which would raise IndexError), `clean_values_in_segment` returns normally;
a row with no segment gets empty-string axis and value keys (not null); a
one-pair segment is split into its axis and member keys lower-cased; and
each output row's displayed segment value is either the `labelText` of a
role-label row matching the lower-cased member key or, when no label
resolves, that lower-cased member key itself — never null, but also never
the raw member text verbatim when it contains upper-case letters. -/
theorem clean_values_in_segment_amended (merged_facts : List MergedRow)
    (labels_df : List LabelRow)
    (hne : ∀ r ∈ merged_facts, r.segment ≠ some []) :
    clean_values_in_segment merged_facts labels_df =
      Except.ok (merged_facts.flatMap (segRowsFor (labelPairs labels_df))) ∧
    segAxisKey none = "" ∧ segValueKey none = "" ∧
    (∀ a m : String, ∀ ps : Segment,
        segAxisKey (some ((a, m) :: ps)) = toLowerStr a ∧
        segValueKey (some ((a, m) :: ps)) = toLowerStr m) ∧
    (∀ r : MergedRow, ∀ s ∈ segRowsFor (labelPairs labels_df) r,
        s.labelText_segmentValue = segValueKey r.segment ∨
        ∃ l ∈ labels_df, l.xlinkRole = "label" ∧
          l.xlinkLabel = segValueKey r.segment ∧
          l.labelText = some s.labelText_segmentValue) := by
  refine ⟨?_, rfl, rfl, fun a m ps => ⟨rfl, rfl⟩, ?_⟩
  · unfold clean_values_in_segment
    rw [if_neg]
    intro hany
    rcases List.any_eq_true.mp hany with ⟨r, hr, hseg⟩
    exact hne r hr (of_decide_eq_true hseg)
  · intro r s hs
    unfold segRowsFor at hs
    rcases List.mem_flatMap.mp hs with ⟨ta, hta, hs2⟩
    rcases List.mem_map.mp hs2 with ⟨tv, htv, rfl⟩
    simp only
    split at htv
    · rcases List.mem_singleton.mp htv with rfl
      exact Or.inl rfl
    · rcases List.mem_map.mp htv with ⟨p, hp, rfl⟩
      have hp2 := List.mem_filter.mp hp
      have hpkey : p.1 = segValueKey r.segment := by simpa using hp2.2
      unfold labelPairs at hp2
      rcases List.mem_map.mp hp2.1 with ⟨l, hl, rfl⟩
      have hl2 := List.mem_filter.mp hl
      cases hlt : l.labelText with
      | none =>
        left
        simp [hlt]
      | some t =>
        right
        refine ⟨l, hl2.1, by simpa using hl2.2, hpkey, ?_⟩
        simp [hlt]

/-- C7 (witness): a concrete one-pair segment row with an empty label table
is processed without error into the flatMap form. -/
theorem clean_values_in_segment_amended_witness :
    clean_values_in_segment [rowSegMember] [] =
      Except.ok ([rowSegMember].flatMap (segRowsFor (labelPairs []))) :=
  (clean_values_in_segment_amended [rowSegMember] [] (by decide)).1

/-- C7 (counterexample): when no label resolves, the member text
`us-gaap:ProductMember` is not kept verbatim — the displayed value is the
lower-cased `us-gaap:productmember`. -/
theorem clean_values_in_segment_lowercases_member :
    clean_values_in_segment [rowSegMember] [] =
      Except.ok [{ labelText := some "Revenues", startDate := some 18993,
                   endDate := some 19082, instant := none, factValue := "500",
                   unitRef := none, labelText_segmentAxis := none,
                   labelText_segmentValue := "us-gaap:productmember" }] ∧
    "us-gaap:productmember" ≠ "us-gaap:ProductMember" := by
  refine ⟨by rfl, by decide⟩

end SecScraper
